import Mathlib

/-!
Verification of the elastic-scroll extraction pipeline (src/main.go).

The program drives an Elasticsearch scroll cursor from a single producer
goroutine, fans individual hits out to ten decode workers over an unbuffered
channel, fans decoded results in to the main goroutine over a second
unbuffered channel, and finally marshals the accumulated slice to a file.
Coordination uses golang.org/x/sync/errgroup: the first goroutine returning a
non-nil error cancels the derived context and is the error Wait reports.

We embed the program as a small-step interleaved transition system over a
configuration recording the producer state, the state of each worker, the
errgroup first-error register, whether the hits channel has been closed, the
closer goroutine state and the aggregator state.  Channels are unbuffered in
the source (`make(chan ...)` with no capacity), so a send is modelled as a
rendezvous that fires only when the peer is at its receive.  The external
scroll service is a parameter: a list of pages followed by a terminal signal
(end-of-data, i.e. io.EOF, or a source error).  JSON decoding of `_source`
payloads into the `Source` struct follows the documented semantics of Go
encoding/json for a struct with the single tagged field `Code string
(json:"code")`.
-/

/-- Model of a parsed JSON document.  Numbers are abstracted as integers;
none of the verified properties depends on numeric fidelity. -/
inductive Json where
  | null : Json
  | bool (b : Bool) : Json
  | num (n : Int) : Json
  | str (s : String) : Json
  | arr (elems : List Json) : Json
  | obj (fields : List (String × Json)) : Json

/-- Go struct `Source { Code string `json:"code"` }`. -/
structure Source where
  Code : String
deriving DecidableEq

/-- Go encoding/json matches an incoming object key against the field tag
`code`, preferring an exact match but also accepting a case-insensitive
match. -/
def keyMatches (k : String) : Bool :=
  k.data.map Char.toLower == "code".data

/-- Folds the fields of a JSON object in order, as encoding/json does when
filling the `Source` struct: a matching key with a string value assigns the
field (last assignment wins), a matching key with JSON null is a no-op, a
matching key with any other value is a type error, and non-matching keys are
ignored (unknown fields are not an error). -/
def unmarshalFields : List (String × Json) → String → Except Unit String
  | [], acc => .ok acc
  | (k, v) :: rest, acc =>
    if keyMatches k then
      match v with
      | .str s => unmarshalFields rest s
      | .null => unmarshalFields rest acc
      | _ => .error ()
    else
      unmarshalFields rest acc

/-- Semantics of `json.Unmarshal(payload, &p)` for `p : Source` on a parsed
JSON document: an object is decoded field by field, a top-level null leaves
the struct at its zero value, and any other top-level kind (string, number,
bool, array) is a type error. -/
def unmarshalSource : Json → Except Unit Source
  | .obj fs => (unmarshalFields fs "").map Source.mk
  | .null => .ok ⟨""⟩
  | _ => .error ()

/-- Semantics of `json.Unmarshal` on the raw payload bytes: `none` stands for
a byte sequence that is not well-formed JSON (a syntax error), `some j` for a
well-formed payload parsing to `j`. -/
def unmarshal : Option Json → Except Unit Source
  | none => .error ()
  | some j => unmarshalSource j

/-- Model of `elastic.SearchHit` as consumed by the program: the `_id` and
the raw `_source` payload. -/
structure SearchHit where
  Id : String
  source : Option Json

/-- Go struct `Hit { Source; ID string }` — the embedded decoded source plus
the document identifier. -/
structure Hit where
  Source : Source
  ID : String

/-- Work done by a decode worker on one hit (src/main.go lines 101-111):
unmarshal the `_source` payload; on success pair it with the hit identifier. -/
def decodeHit (h : SearchHit) : Except Unit Hit :=
  match unmarshal h.source with
  | .ok p => .ok ⟨p, h.Id⟩
  | .error e => .error e

/-- Serialization of one `Hit` by `json.Marshal`: the embedded `Source`
contributes the tagged field `code`, the untagged `ID` field contributes the
field name `ID` (Go uses the field name verbatim when there is no tag), in
struct declaration order. -/
def hitJson (h : Hit) : Json :=
  .obj [("code", .str h.Source.Code), ("ID", .str h.ID)]

/-- Serialization of the accumulated slice by `json.Marshal(data)`:
`var data []Hit` is a nil slice and stays nil when no element was ever
appended, and Go marshals a nil slice as JSON `null`; a non-empty slice
marshals as a JSON array. -/
def marshalData : List Hit → Json
  | [] => .null
  | hs => .arr (hs.map hitJson)

/-- Terminal signal of the scroll service after all pages are exhausted:
either io.EOF (normal end of data) or any other error. -/
inductive Term where
  | eof : Term
  | srcErr : Term
deriving DecidableEq

/-- Root causes recorded by the errgroup: a scroll (source) error returned by
the producer, or a decode error returned by a worker on a given hit.
Context-cancellation errors returned by already-cancelled stages are never
recorded because the errgroup keeps only the first error. -/
inductive Err where
  | source : Err
  | decode (h : SearchHit) : Err

/-- State of the producer goroutine (src/main.go lines 69-95): about to call
`scroll.Do` for the k-th time, publishing the remaining records of page k,
or returned (`failed = false` exactly for the `return nil` path on io.EOF). -/
inductive PState where
  | fetching (k : Nat) : PState
  | sending (k : Nat) (pending : List SearchHit) : PState
  | done (failed : Bool) : PState

/-- Whether the producer goroutine has returned (on return the deferred
`close(hits)` has run). -/
def PState.isDone : PState → Bool
  | .done _ => true
  | _ => false

/-- State of one decode worker (src/main.go lines 100-123): blocked receiving
on the hits channel, holding a received hit about to decode it, blocked
sending the decoded result, about to poll the context after a send, or
returned. -/
inductive WState where
  | waiting : WState
  | got (h : SearchHit) : WState
  | sendingRes (hit : Hit) : WState
  | polling : WState
  | done : WState

/-- State of the closer goroutine (src/main.go lines 126-132): blocked in
`g.Wait()`, having closed `ch` (Wait returned nil), or having panicked
(Wait returned an error). -/
inductive CState where
  | waiting : CState
  | closed : CState
  | panicked : CState

/-- State of the main goroutine (src/main.go lines 136-147): ranging over
`ch` with the slice accumulated so far, or past the loop with the final
slice marshalled and written to data.json. -/
inductive AState where
  | receiving (acc : List Hit) : AState
  | finished (data : List Hit) : AState

/-- One run-time configuration of the whole pipeline. -/
structure Cfg where
  prod : PState
  workers : List WState
  firstErr : Option Err
  hitsClosed : Bool
  closer : CState
  agg : AState

/-- Initial configuration with `n` workers: producer about to issue the first
scroll call, all workers blocked on the empty hits channel, no error, both
channels open, closer blocked in Wait, main ranging with an empty slice.
The source hardcodes `n = 10`. -/
def init (n : Nat) : Cfg :=
  { prod := .fetching 0
    workers := List.replicate n .waiting
    firstErr := none
    hitsClosed := false
    closer := .waiting
    agg := .receiving [] }

/-- First-error register of the errgroup: `g.Go` records the first non-nil
error and discards later ones. -/
def setErr (fe : Option Err) (e : Err) : Option Err :=
  some (fe.getD e)

/-- Small-step interleaved semantics of the pipeline, parameterised by the
scroll service contents: `pages` are the successive non-terminal results of
`scroll.Do`, and `term` is what the call after the last page reports.
Each constructor is one atomic step of one goroutine:

* `fetchPage`/`fetchEof`/`fetchSrcErr`: `scroll.Do(ctx)` with the context
  not yet cancelled returns the next page, io.EOF, or another error;
* `fetchCancelled`: `scroll.Do(ctx)` with the context already cancelled
  fails, and the producer returns that error (discarded by the errgroup);
* `sendHit`: the unconditional `hits <- *hit` rendezvous with a worker
  blocked at `for hit := range hits` — note the source performs this send
  without any context check;
* `pageNext`/`pageCancelled`: the `select` poll after a page is published;
* `recvClosed`: a worker observes the closed hits channel and returns nil;
* `decodeOk`/`decodeFail`: `json.Unmarshal` on the received hit;
* `sendRes`: the `ch <- Hit{...}` rendezvous with the main goroutine
  (which is at its receive whenever it is still ranging);
* `pollOk`/`pollCancelled`: the worker `select` poll after a send;
* `closeOk`/`closePanic`: `g.Wait()` returns once the producer and every
  worker have returned, then the closer closes `ch` or panics;
* `aggFinish`: the range loop ends on channel closure and the main
  goroutine marshals the slice and writes data.json. -/
inductive Step (pages : List (List SearchHit)) (term : Term) : Cfg → Cfg → Prop where
  | fetchPage (c : Cfg) (k : Nat) (pg : List SearchHit)
      (hp : c.prod = .fetching k) (he : c.firstErr = none)
      (hk : pages[k]? = some pg) :
      Step pages term c { c with prod := .sending k pg }
  | fetchCancelled (c : Cfg) (k : Nat) (e : Err)
      (hp : c.prod = .fetching k) (he : c.firstErr = some e) :
      Step pages term c { c with prod := .done true, hitsClosed := true }
  | fetchEof (c : Cfg) (k : Nat)
      (hp : c.prod = .fetching k) (he : c.firstErr = none)
      (hk : pages.length ≤ k) (ht : term = .eof) :
      Step pages term c { c with prod := .done false, hitsClosed := true }
  | fetchSrcErr (c : Cfg) (k : Nat)
      (hp : c.prod = .fetching k) (he : c.firstErr = none)
      (hk : pages.length ≤ k) (ht : term = .srcErr) :
      Step pages term c { c with prod := .done true, hitsClosed := true,
                                 firstErr := setErr c.firstErr .source }
  | sendHit (c : Cfg) (k : Nat) (h : SearchHit) (rest : List SearchHit) (i : Nat)
      (hp : c.prod = .sending k (h :: rest)) (hi : i < c.workers.length)
      (hw : c.workers.get ⟨i, hi⟩ = .waiting) :
      Step pages term c { c with prod := .sending k rest,
                                 workers := c.workers.set i (.got h) }
  | pageNext (c : Cfg) (k : Nat)
      (hp : c.prod = .sending k []) (he : c.firstErr = none) :
      Step pages term c { c with prod := .fetching (k + 1) }
  | pageCancelled (c : Cfg) (k : Nat) (e : Err)
      (hp : c.prod = .sending k []) (he : c.firstErr = some e) :
      Step pages term c { c with prod := .done true, hitsClosed := true }
  | recvClosed (c : Cfg) (i : Nat)
      (hcl : c.hitsClosed = true) (hi : i < c.workers.length)
      (hw : c.workers.get ⟨i, hi⟩ = .waiting) :
      Step pages term c { c with workers := c.workers.set i .done }
  | decodeOk (c : Cfg) (i : Nat) (h : SearchHit) (hit : Hit)
      (hi : i < c.workers.length) (hw : c.workers.get ⟨i, hi⟩ = .got h)
      (hd : decodeHit h = .ok hit) :
      Step pages term c { c with workers := c.workers.set i (.sendingRes hit) }
  | decodeFail (c : Cfg) (i : Nat) (h : SearchHit) (e : Unit)
      (hi : i < c.workers.length) (hw : c.workers.get ⟨i, hi⟩ = .got h)
      (hd : decodeHit h = .error e) :
      Step pages term c { c with workers := c.workers.set i .done,
                                 firstErr := setErr c.firstErr (.decode h) }
  | sendRes (c : Cfg) (i : Nat) (hit : Hit) (acc : List Hit)
      (hi : i < c.workers.length) (hw : c.workers.get ⟨i, hi⟩ = .sendingRes hit)
      (ha : c.agg = .receiving acc) :
      Step pages term c { c with workers := c.workers.set i .polling,
                                 agg := .receiving (acc ++ [hit]) }
  | pollOk (c : Cfg) (i : Nat)
      (hi : i < c.workers.length) (hw : c.workers.get ⟨i, hi⟩ = .polling)
      (he : c.firstErr = none) :
      Step pages term c { c with workers := c.workers.set i .waiting }
  | pollCancelled (c : Cfg) (i : Nat) (e : Err)
      (hi : i < c.workers.length) (hw : c.workers.get ⟨i, hi⟩ = .polling)
      (he : c.firstErr = some e) :
      Step pages term c { c with workers := c.workers.set i .done }
  | closeOk (c : Cfg)
      (hP : c.prod.isDone = true) (hW : ∀ w ∈ c.workers, w = WState.done)
      (hcl : c.closer = .waiting) (he : c.firstErr = none) :
      Step pages term c { c with closer := .closed }
  | closePanic (c : Cfg) (e : Err)
      (hP : c.prod.isDone = true) (hW : ∀ w ∈ c.workers, w = WState.done)
      (hcl : c.closer = .waiting) (he : c.firstErr = some e) :
      Step pages term c { c with closer := .panicked }
  | aggFinish (c : Cfg) (acc : List Hit)
      (ha : c.agg = .receiving acc) (hcl : c.closer = .closed) :
      Step pages term c { c with agg := .finished acc }

/-- Reachability: zero or more interleaved steps. -/
def Reach (pages : List (List SearchHit)) (term : Term) : Cfg → Cfg → Prop :=
  Relation.ReflTransGen (Step pages term)

/-- Raw records still upstream of the hits channel: everything the producer
has not yet published.  While fetching page k, all pages from k on are still
upstream; while publishing page k, the pending remainder of that page plus
all later pages; after the producer returned, nothing. -/
def prodUpstream (pages : List (List SearchHit)) : PState → List SearchHit
  | .fetching k => (pages.drop k).flatten
  | .sending k pending => pending ++ (pages.drop (k + 1)).flatten
  | .done _ => []

/-- Decode outcome held inside one worker: a received raw hit stands for its
eventual decode outcome, a decoded hit waiting on the results channel stands
for a successful outcome, and a worker at any other point holds nothing. -/
def wContrib : WState → Multiset (Except Unit Hit)
  | .got h => {decodeHit h}
  | .sendingRes hit => {Except.ok hit}
  | _ => 0

/-- Slice accumulated (and, after the loop, marshalled) by the main
goroutine. -/
def accOf : AState → List Hit
  | .receiving acc => acc
  | .finished data => data

/-- Multiset of decode outcomes distributed across the whole pipeline:
records still upstream of the hits channel, records held inside workers, and
results already accumulated by the main goroutine. -/
def inflight (pages : List (List SearchHit)) (c : Cfg) : Multiset (Except Unit Hit) :=
  (((prodUpstream pages c.prod).map decodeHit : List _) : Multiset _)
    + (c.workers.map wContrib).sum
    + (((accOf c.agg).map (Except.ok : Hit → Except Unit Hit) : List _) : Multiset _)

theorem sum_map_set {α β : Type _} [AddCommMonoid β] (f : α → β)
    (l : List α) (i : Nat) (x : α) (h : i < l.length) :
    ((l.set i x).map f).sum + f (l.get ⟨i, h⟩) = (l.map f).sum + f x := by
  induction l generalizing i with
  | nil => simp at h
  | cons a l ih =>
    cases i with
    | zero => simp [add_comm, add_assoc, add_left_comm]
    | succ i =>
      have hi : i < l.length := by simpa using h
      simp only [List.set, List.map_cons, List.sum_cons, List.get]
      rw [add_assoc, ih i hi, ← add_assoc]

theorem drop_flatten_eq (pages : List (List SearchHit)) (k : Nat) (pg : List SearchHit)
    (hk : pages[k]? = some pg) :
    (pages.drop k).flatten = pg ++ (pages.drop (k + 1)).flatten := by
  obtain ⟨hlt, hget⟩ := List.getElem?_eq_some.mp hk
  rw [List.drop_eq_getElem_cons hlt, hget, List.flatten_cons]

/-- Once the errgroup has recorded a first error, every later step keeps that
same error: later failures are discarded. -/
theorem step_firstErr_mono {pages : List (List SearchHit)} {term : Term} {c c' : Cfg}
    (h : Step pages term c c') (e : Err) (he : c.firstErr = some e) :
    c'.firstErr = some e := by
  cases h <;> simp_all [setErr]

/-- Once the main goroutine has finished, no step changes the final slice:
the artifact is finalized (and written) once. -/
theorem step_finished_stable {pages : List (List SearchHit)} {term : Term} {c c' : Cfg}
    (h : Step pages term c c') (d : List Hit) (ha : c.agg = .finished d) :
    c'.agg = .finished d := by
  cases h <;> simp_all

/-- Workers of a fully joined pipeline hold nothing. -/
theorem all_done_get {l : List WState} (hall : ∀ w ∈ l, w = WState.done)
    (i : Nat) (hi : i < l.length) : l.get ⟨i, hi⟩ = WState.done :=
  hall _ (List.get_mem l i hi)

/-- Inductive invariant of the pipeline, proved to hold in every reachable
configuration:

* `cons`: while no error has been recorded, the decode outcomes distributed
  across producer, workers and aggregator are exactly the decode outcomes of
  all records of all pages — no record is duplicated, dropped or invented;
* `hcProd`: the hits channel is closed exactly when the producer returned
  (the deferred `close(hits)` runs on every exit path);
* `doneEof`: the producer returned nil only because `scroll.Do` reported
  io.EOF;
* `doneErr`: whenever the producer returned an error, the errgroup holds a
  recorded first error;
* `closedInv`: the results channel is closed only after `g.Wait()` returned
  nil, which requires the producer and every worker to have returned and no
  error to have been recorded;
* `finClosed`: the main goroutine got past its range loop only because the
  results channel was closed. -/
structure PipelineInv (pages : List (List SearchHit)) (term : Term) (c : Cfg) : Prop where
  cons : c.firstErr = none →
    inflight pages c = ((pages.flatten.map decodeHit : List _) : Multiset _)
  hcProd : c.hitsClosed = c.prod.isDone
  doneEof : c.prod = .done false → term = .eof
  doneErr : c.prod = .done true → c.firstErr ≠ none
  closedInv : c.closer = .closed →
    c.firstErr = none ∧ c.prod.isDone = true ∧ ∀ w ∈ c.workers, w = WState.done
  finClosed : ∀ d, c.agg = .finished d → c.closer = .closed

theorem init_inv (pages : List (List SearchHit)) (term : Term) (n : Nat) :
    PipelineInv pages term (init n) := by
  constructor
  · intro _
    simp [inflight, init, prodUpstream, accOf, wContrib, List.map_replicate]
  · rfl
  · intro h
    simp [init] at h
  · intro h
    simp [init] at h
  · intro h
    simp [init] at h
  · intro d h
    simp [init] at h

theorem step_cons {pages : List (List SearchHit)} {term : Term} {c c' : Cfg}
    (h : Step pages term c c') (hc : PipelineInv pages term c) (he2 : c'.firstErr = none) :
    inflight pages c' = ((pages.flatten.map decodeHit : List _) : Multiset _) := by
  cases h with
  | fetchPage k pg hp he hk =>
      have h0 := hc.cons he
      simp only [inflight, hp] at h0 ⊢
      dsimp only [prodUpstream] at h0 ⊢
      rw [drop_flatten_eq pages k pg hk] at h0
      exact h0
  | fetchCancelled k e hp he =>
      exact absurd (he2.symm.trans he) (by simp)
  | fetchEof k hp he hk ht =>
      have h0 := hc.cons he
      simp only [inflight, hp] at h0 ⊢
      dsimp only [prodUpstream] at h0 ⊢
      rw [List.drop_eq_nil_of_le hk] at h0
      simpa using h0
  | fetchSrcErr k hp he hk ht =>
      simp [setErr] at he2
  | sendHit k h rest i hp hi hw =>
      have h0 := hc.cons he2
      have hS := sum_map_set wContrib c.workers i (.got h) hi
      rw [hw] at hS
      simp only [wContrib, add_zero] at hS
      simp only [inflight, hp] at h0 ⊢
      dsimp only [prodUpstream] at h0 ⊢
      rw [hS, ← h0]
      simp only [List.cons_append, List.map_cons, ← Multiset.cons_coe,
        ← Multiset.singleton_add]
      abel
  | pageNext k hp he =>
      have h0 := hc.cons he
      simp only [inflight, hp] at h0 ⊢
      dsimp only [prodUpstream] at h0 ⊢
      simpa using h0
  | pageCancelled k e hp he =>
      exact absurd (he2.symm.trans he) (by simp)
  | recvClosed i hcl hi hw =>
      have h0 := hc.cons he2
      have hS := sum_map_set wContrib c.workers i .done hi
      rw [hw] at hS
      simp only [wContrib, add_zero] at hS
      simp only [inflight] at h0 ⊢
      rw [hS]
      exact h0
  | decodeOk i h hit hi hw hd =>
      have h0 := hc.cons he2
      have hS := sum_map_set wContrib c.workers i (.sendingRes hit) hi
      rw [hw] at hS
      simp only [wContrib, hd] at hS
      have hSS := add_right_cancel hS
      simp only [inflight] at h0 ⊢
      rw [hSS]
      exact h0
  | decodeFail i h e hi hw hd =>
      simp [setErr] at he2
  | sendRes i hit acc hi hw ha =>
      have h0 := hc.cons he2
      have hS := sum_map_set wContrib c.workers i .polling hi
      rw [hw] at hS
      simp only [wContrib, add_zero] at hS
      simp only [inflight, ha] at h0 ⊢
      dsimp only [accOf] at h0 ⊢
      rw [← h0, ← hS]
      simp only [List.map_append, List.map_cons, List.map_nil, ← Multiset.coe_add]
      abel
  | pollOk i hi hw he =>
      have h0 := hc.cons he
      have hS := sum_map_set wContrib c.workers i .waiting hi
      rw [hw] at hS
      simp only [wContrib, add_zero] at hS
      simp only [inflight] at h0 ⊢
      rw [hS]
      exact h0
  | pollCancelled i e hi hw he =>
      exact absurd (he2.symm.trans he) (by simp)
  | closeOk hP hW hcl he =>
      exact hc.cons he2
  | closePanic e hP hW hcl he =>
      exact absurd (he2.symm.trans he) (by simp)
  | aggFinish acc ha hcl =>
      have h0 := hc.cons he2
      simp only [inflight, ha] at h0 ⊢
      dsimp only [accOf] at h0 ⊢
      exact h0

theorem step_hcProd {pages : List (List SearchHit)} {term : Term} {c c' : Cfg}
    (h : Step pages term c c') (hc : PipelineInv pages term c) :
    c'.hitsClosed = c'.prod.isDone := by
  have h1 := hc.hcProd
  cases h <;> simp_all [PState.isDone]

theorem step_doneEof {pages : List (List SearchHit)} {term : Term} {c c' : Cfg}
    (h : Step pages term c c') (hc : PipelineInv pages term c) :
    c'.prod = .done false → term = .eof := by
  have h1 := hc.doneEof
  cases h <;> simp_all

theorem step_doneErr {pages : List (List SearchHit)} {term : Term} {c c' : Cfg}
    (h : Step pages term c c') (hc : PipelineInv pages term c) :
    c'.prod = .done true → c'.firstErr ≠ none := by
  have h1 := hc.doneErr
  cases h <;> simp_all [setErr]

theorem step_closedInv {pages : List (List SearchHit)} {term : Term} {c c' : Cfg}
    (h : Step pages term c c') (hc : PipelineInv pages term c) :
    c'.closer = .closed →
      c'.firstErr = none ∧ c'.prod.isDone = true ∧ ∀ w ∈ c'.workers, w = WState.done := by
  have h1 := hc.closedInv
  cases h with
  | fetchPage k pg hp he hk =>
      intro hcl
      obtain ⟨-, hdone, -⟩ := h1 hcl
      rw [hp] at hdone
      simp [PState.isDone] at hdone
  | fetchCancelled k e hp he =>
      intro hcl
      obtain ⟨-, hdone, -⟩ := h1 hcl
      rw [hp] at hdone
      simp [PState.isDone] at hdone
  | fetchEof k hp he hk ht =>
      intro hcl
      obtain ⟨-, hdone, -⟩ := h1 hcl
      rw [hp] at hdone
      simp [PState.isDone] at hdone
  | fetchSrcErr k hp he hk ht =>
      intro hcl
      obtain ⟨-, hdone, -⟩ := h1 hcl
      rw [hp] at hdone
      simp [PState.isDone] at hdone
  | pageNext k hp he =>
      intro hcl
      obtain ⟨-, hdone, -⟩ := h1 hcl
      rw [hp] at hdone
      simp [PState.isDone] at hdone
  | pageCancelled k e hp he =>
      intro hcl
      obtain ⟨-, hdone, -⟩ := h1 hcl
      rw [hp] at hdone
      simp [PState.isDone] at hdone
  | sendHit k h rest i hp hi hw =>
      intro hcl
      obtain ⟨-, -, hall⟩ := h1 hcl
      have := all_done_get hall i hi
      rw [hw] at this
      exact absurd this (by simp)
  | recvClosed i hcl0 hi hw =>
      intro hcl
      obtain ⟨-, -, hall⟩ := h1 hcl
      have := all_done_get hall i hi
      rw [hw] at this
      exact absurd this (by simp)
  | decodeOk i h hit hi hw hd =>
      intro hcl
      obtain ⟨-, -, hall⟩ := h1 hcl
      have := all_done_get hall i hi
      rw [hw] at this
      exact absurd this (by simp)
  | decodeFail i h e hi hw hd =>
      intro hcl
      obtain ⟨-, -, hall⟩ := h1 hcl
      have := all_done_get hall i hi
      rw [hw] at this
      exact absurd this (by simp)
  | sendRes i hit acc hi hw ha =>
      intro hcl
      obtain ⟨-, -, hall⟩ := h1 hcl
      have := all_done_get hall i hi
      rw [hw] at this
      exact absurd this (by simp)
  | pollOk i hi hw he =>
      intro hcl
      obtain ⟨-, -, hall⟩ := h1 hcl
      have := all_done_get hall i hi
      rw [hw] at this
      exact absurd this (by simp)
  | pollCancelled i e hi hw he =>
      intro hcl
      obtain ⟨-, -, hall⟩ := h1 hcl
      have := all_done_get hall i hi
      rw [hw] at this
      exact absurd this (by simp)
  | closeOk hP hW hcl0 he =>
      intro _
      exact ⟨he, hP, hW⟩
  | closePanic e hP hW hcl0 he =>
      intro hcl
      simp at hcl
  | aggFinish acc ha hcl0 =>
      intro hcl
      exact h1 hcl

theorem step_finClosed {pages : List (List SearchHit)} {term : Term} {c c' : Cfg}
    (h : Step pages term c c') (hc : PipelineInv pages term c) :
    ∀ d, c'.agg = .finished d → c'.closer = .closed := by
  have h1 := hc.finClosed
  cases h with
  | closeOk hP hW hcl0 he => intro d _; rfl
  | closePanic e hP hW hcl0 he =>
      intro d hfin
      exact absurd (h1 d hfin) (by rw [hcl0]; simp)
  | aggFinish acc ha hcl0 => intro d _; exact hcl0
  | sendRes i hit acc hi hw ha => intro d hfin; simp at hfin
  | _ => exact h1

theorem step_inv {pages : List (List SearchHit)} {term : Term} {c c' : Cfg}
    (h : Step pages term c c') (hc : PipelineInv pages term c) :
    PipelineInv pages term c' :=
  ⟨step_cons h hc, step_hcProd h hc, step_doneEof h hc, step_doneErr h hc,
    step_closedInv h hc, step_finClosed h hc⟩

/-- Every configuration reachable from the initial one satisfies the
pipeline invariant. -/
theorem reach_inv {pages : List (List SearchHit)} {term : Term} {n : Nat} {c : Cfg}
    (h : Reach pages term (init n) c) : PipelineInv pages term c := by
  induction h with
  | refl => exact init_inv pages term n
  | tail hr hs ih => exact step_inv hs ih

theorem all_done_contrib {l : List WState} (hall : ∀ w ∈ l, w = WState.done) :
    (l.map wContrib).sum = 0 := by
  induction l with
  | nil => simp
  | cons a l ih =>
      have ha := hall a (by simp)
      subst ha
      rw [List.map_cons, List.sum_cons, ih (fun w hw => hall w (by simp [hw]))]
      simp [wContrib]

theorem isDone_upstream (pages : List (List SearchHit)) (p : PState)
    (h : p.isDone = true) : prodUpstream pages p = [] := by
  cases p <;> simp_all [PState.isDone, prodUpstream]

theorem decodeHit_ok_id {h : SearchHit} {hit : Hit} (hd : decodeHit h = .ok hit) :
    hit.ID = h.Id := by
  unfold decodeHit at hd
  cases hu : unmarshal h.source <;> rw [hu] at hd
  · simp at hd
  · injection hd with h1
    rw [← h1]

/-- Master consequence of the invariant at a finished configuration: the
marshalled slice contains, as a multiset, exactly the successful decode
outcomes of every record of every page. -/
theorem finished_ok {pages : List (List SearchHit)} {term : Term} {n : Nat}
    {c : Cfg} {data : List Hit}
    (h : Reach pages term (init n) c) (hfin : c.agg = .finished data) :
    (↑(data.map (Except.ok : Hit → Except Unit Hit)) : Multiset (Except Unit Hit))
      = (↑(pages.flatten.map decodeHit) : Multiset (Except Unit Hit)) := by
  have inv := reach_inv h
  have hcl := inv.finClosed data hfin
  obtain ⟨hne, hdone, hall⟩ := inv.closedInv hcl
  have h0 := inv.cons hne
  rw [inflight, isDone_upstream pages c.prod hdone, all_done_contrib hall, hfin] at h0
  simpa [accOf] using h0

/-- At a finished configuration no error was ever recorded and the scroll
terminated with io.EOF. -/
theorem finished_eof {pages : List (List SearchHit)} {term : Term} {n : Nat}
    {c : Cfg} {data : List Hit}
    (h : Reach pages term (init n) c) (hfin : c.agg = .finished data) :
    c.firstErr = none ∧ term = .eof := by
  have inv := reach_inv h
  have hcl := inv.finClosed data hfin
  obtain ⟨hne, hdone, hall⟩ := inv.closedInv hcl
  refine ⟨hne, ?_⟩
  cases hp : c.prod with
  | fetching k => rw [hp] at hdone; simp [PState.isDone] at hdone
  | sending k pending => rw [hp] at hdone; simp [PState.isDone] at hdone
  | done failed =>
      cases failed with
      | false => exact inv.doneEof hp
      | true => exact absurd hne (inv.doneErr hp)

/-- At a finished configuration every record of every page decoded
successfully. -/
theorem finished_decode_ok {pages : List (List SearchHit)} {term : Term} {n : Nat}
    {c : Cfg} {data : List Hit}
    (h : Reach pages term (init n) c) (hfin : c.agg = .finished data) :
    ∀ r ∈ pages.flatten, ∃ hit, decodeHit r = .ok hit := by
  intro r hr
  have hok := finished_ok h hfin
  have hmem : decodeHit r ∈ (↑(pages.flatten.map decodeHit) : Multiset (Except Unit Hit)) := by
    rw [Multiset.mem_coe]
    exact List.mem_map_of_mem decodeHit hr
  rw [← hok, Multiset.mem_coe] at hmem
  obtain ⟨hit, -, hh⟩ := List.mem_map.mp hmem
  exact ⟨hit, hh.symm⟩

/-- At a finished configuration the multiset of identifiers in the
marshalled slice equals the multiset of identifiers of all records of all
pages. -/
theorem finished_ids {pages : List (List SearchHit)} {term : Term} {n : Nat}
    {c : Cfg} {data : List Hit}
    (h : Reach pages term (init n) c) (hfin : c.agg = .finished data) :
    (↑(data.map Hit.ID) : Multiset String)
      = (↑(pages.flatten.map SearchHit.Id) : Multiset String) := by
  have hok := finished_ok h hfin
  have hdec := finished_decode_ok h hfin
  have hmap := congrArg (Multiset.map fun e : Except Unit Hit =>
    match e with | .ok hit => hit.ID | .error _ => "") hok
  rw [Multiset.map_coe, Multiset.map_coe, List.map_map, List.map_map] at hmap
  have hl : data.map ((fun e : Except Unit Hit =>
      match e with | .ok hit => hit.ID | .error _ => "") ∘ Except.ok) = data.map Hit.ID :=
    List.map_congr_left (fun a _ => rfl)
  have hr : pages.flatten.map ((fun e : Except Unit Hit =>
      match e with | .ok hit => hit.ID | .error _ => "") ∘ decodeHit)
      = pages.flatten.map SearchHit.Id := by
    refine List.map_congr_left (fun r hrm => ?_)
    obtain ⟨hit, hd⟩ := hdec r hrm
    simp [Function.comp, hd, decodeHit_ok_id hd]
  rw [hl, hr] at hmap
  exact hmap

/-- At a finished configuration the marshalled slice has exactly one element
per record of the scroll. -/
theorem finished_len {pages : List (List SearchHit)} {term : Term} {n : Nat}
    {c : Cfg} {data : List Hit}
    (h : Reach pages term (init n) c) (hfin : c.agg = .finished data) :
    data.length = pages.flatten.length := by
  have hok := congrArg Multiset.card (finished_ok h hfin)
  rw [Multiset.coe_card, Multiset.coe_card, List.length_map, List.length_map] at hok
  exact hok

/-- Concrete record whose payload is the JSON object with a single field
`code` holding the string `A`. -/
def hitA : SearchHit := ⟨"id1", some (.obj [("code", .str "A")])⟩

/-- Decoded form of `hitA`. -/
def hitAOut : Hit := ⟨⟨"A"⟩, "id1"⟩

/-- Concrete record whose payload is not well-formed JSON, so decoding it
fails. -/
def badHit : SearchHit := ⟨"bad", none⟩

/-- Concrete record whose payload is JSON null, which decodes to the zero
value of the struct. -/
def goodHit : SearchHit := ⟨"g", some .null⟩

/-- Decoded form of `goodHit`. -/
def goodOut : Hit := ⟨⟨""⟩, "g"⟩

theorem decode_hitA : decodeHit hitA = .ok hitAOut := by rfl

theorem decode_badHit : decodeHit badHit = .error () := by rfl

theorem decode_goodHit : decodeHit goodHit = .ok goodOut := by rfl

/-- Scroll contents with a single page holding the single record `hitA`. -/
def pages1 : List (List SearchHit) := [[hitA]]

/-- Terminal configuration of a complete successful run over `pages1` with
the ten workers of the source. -/
def cfgT1 : Cfg :=
  { prod := .done false
    workers := List.replicate 10 .done
    firstErr := none
    hitsClosed := true
    closer := .closed
    agg := .finished [hitAOut] }

/-- Execution witness: a full successful run of the ten-worker pipeline over
one page with one record, ending with data.json written. -/
theorem reach_cfgT1 : Reach pages1 .eof (init 10) cfgT1 := by
  have s0 : Reach pages1 .eof (init 10) (init 10) := Relation.ReflTransGen.refl
  have s1 : Reach pages1 .eof (init 10)
      ⟨.sending 0 [hitA], List.replicate 10 .waiting, none, false, .waiting, .receiving []⟩ :=
    s0.tail (Step.fetchPage _ 0 [hitA] rfl rfl rfl)
  have s2 : Reach pages1 .eof (init 10)
      ⟨.sending 0 [], .got hitA :: List.replicate 9 .waiting, none, false, .waiting,
        .receiving []⟩ :=
    s1.tail (Step.sendHit _ 0 hitA [] 0 rfl (by decide) rfl)
  have s3 : Reach pages1 .eof (init 10)
      ⟨.sending 0 [], .sendingRes hitAOut :: List.replicate 9 .waiting, none, false, .waiting,
        .receiving []⟩ :=
    s2.tail (Step.decodeOk _ 0 hitA hitAOut (by decide) rfl decode_hitA)
  have s4 : Reach pages1 .eof (init 10)
      ⟨.sending 0 [], .polling :: List.replicate 9 .waiting, none, false, .waiting,
        .receiving [hitAOut]⟩ :=
    s3.tail (Step.sendRes _ 0 hitAOut [] (by decide) rfl rfl)
  have s5 : Reach pages1 .eof (init 10)
      ⟨.sending 0 [], List.replicate 10 .waiting, none, false, .waiting,
        .receiving [hitAOut]⟩ :=
    s4.tail (Step.pollOk _ 0 (by decide) rfl rfl)
  have s6 : Reach pages1 .eof (init 10)
      ⟨.fetching 1, List.replicate 10 .waiting, none, false, .waiting, .receiving [hitAOut]⟩ :=
    s5.tail (Step.pageNext _ 0 rfl rfl)
  have s7 : Reach pages1 .eof (init 10)
      ⟨.done false, List.replicate 10 .waiting, none, true, .waiting, .receiving [hitAOut]⟩ :=
    s6.tail (Step.fetchEof _ 1 rfl rfl (by decide) rfl)
  have s8 : Reach pages1 .eof (init 10)
      ⟨.done false, List.replicate 1 .done ++ List.replicate 9 .waiting, none, true, .waiting,
        .receiving [hitAOut]⟩ :=
    s7.tail (Step.recvClosed _ 0 rfl (by decide) rfl)
  have s9 : Reach pages1 .eof (init 10)
      ⟨.done false, List.replicate 2 .done ++ List.replicate 8 .waiting, none, true, .waiting,
        .receiving [hitAOut]⟩ :=
    s8.tail (Step.recvClosed _ 1 rfl (by decide) rfl)
  have s10 : Reach pages1 .eof (init 10)
      ⟨.done false, List.replicate 3 .done ++ List.replicate 7 .waiting, none, true, .waiting,
        .receiving [hitAOut]⟩ :=
    s9.tail (Step.recvClosed _ 2 rfl (by decide) rfl)
  have s11 : Reach pages1 .eof (init 10)
      ⟨.done false, List.replicate 4 .done ++ List.replicate 6 .waiting, none, true, .waiting,
        .receiving [hitAOut]⟩ :=
    s10.tail (Step.recvClosed _ 3 rfl (by decide) rfl)
  have s12 : Reach pages1 .eof (init 10)
      ⟨.done false, List.replicate 5 .done ++ List.replicate 5 .waiting, none, true, .waiting,
        .receiving [hitAOut]⟩ :=
    s11.tail (Step.recvClosed _ 4 rfl (by decide) rfl)
  have s13 : Reach pages1 .eof (init 10)
      ⟨.done false, List.replicate 6 .done ++ List.replicate 4 .waiting, none, true, .waiting,
        .receiving [hitAOut]⟩ :=
    s12.tail (Step.recvClosed _ 5 rfl (by decide) rfl)
  have s14 : Reach pages1 .eof (init 10)
      ⟨.done false, List.replicate 7 .done ++ List.replicate 3 .waiting, none, true, .waiting,
        .receiving [hitAOut]⟩ :=
    s13.tail (Step.recvClosed _ 6 rfl (by decide) rfl)
  have s15 : Reach pages1 .eof (init 10)
      ⟨.done false, List.replicate 8 .done ++ List.replicate 2 .waiting, none, true, .waiting,
        .receiving [hitAOut]⟩ :=
    s14.tail (Step.recvClosed _ 7 rfl (by decide) rfl)
  have s16 : Reach pages1 .eof (init 10)
      ⟨.done false, List.replicate 9 .done ++ List.replicate 1 .waiting, none, true, .waiting,
        .receiving [hitAOut]⟩ :=
    s15.tail (Step.recvClosed _ 8 rfl (by decide) rfl)
  have s17 : Reach pages1 .eof (init 10)
      ⟨.done false, List.replicate 10 .done, none, true, .waiting, .receiving [hitAOut]⟩ :=
    s16.tail (Step.recvClosed _ 9 rfl (by decide) rfl)
  have s18 : Reach pages1 .eof (init 10)
      ⟨.done false, List.replicate 10 .done, none, true, .closed, .receiving [hitAOut]⟩ :=
    s17.tail (Step.closeOk _ rfl (fun w hw => List.eq_of_mem_replicate hw) rfl rfl)
  exact s18.tail (Step.aggFinish _ [hitAOut] rfl rfl)

/-- Scroll contents with zero matching records: the first scroll call
reports io.EOF immediately. -/
def pages0 : List (List SearchHit) := []

/-- Terminal configuration of a complete run over zero records. -/
def cfgT0 : Cfg :=
  { prod := .done false
    workers := List.replicate 10 .done
    firstErr := none
    hitsClosed := true
    closer := .closed
    agg := .finished [] }

/-- Execution witness: a full successful run of the ten-worker pipeline over
zero matching records. -/
theorem reach_cfgT0 : Reach pages0 .eof (init 10) cfgT0 := by
  have s0 : Reach pages0 .eof (init 10) (init 10) := Relation.ReflTransGen.refl
  have s1 : Reach pages0 .eof (init 10)
      ⟨.done false, List.replicate 10 .waiting, none, true, .waiting, .receiving []⟩ :=
    s0.tail (Step.fetchEof _ 0 rfl rfl (by decide) rfl)
  have s2 : Reach pages0 .eof (init 10)
      ⟨.done false, List.replicate 1 .done ++ List.replicate 9 .waiting, none, true, .waiting,
        .receiving []⟩ :=
    s1.tail (Step.recvClosed _ 0 rfl (by decide) rfl)
  have s3 : Reach pages0 .eof (init 10)
      ⟨.done false, List.replicate 2 .done ++ List.replicate 8 .waiting, none, true, .waiting,
        .receiving []⟩ :=
    s2.tail (Step.recvClosed _ 1 rfl (by decide) rfl)
  have s4 : Reach pages0 .eof (init 10)
      ⟨.done false, List.replicate 3 .done ++ List.replicate 7 .waiting, none, true, .waiting,
        .receiving []⟩ :=
    s3.tail (Step.recvClosed _ 2 rfl (by decide) rfl)
  have s5 : Reach pages0 .eof (init 10)
      ⟨.done false, List.replicate 4 .done ++ List.replicate 6 .waiting, none, true, .waiting,
        .receiving []⟩ :=
    s4.tail (Step.recvClosed _ 3 rfl (by decide) rfl)
  have s6 : Reach pages0 .eof (init 10)
      ⟨.done false, List.replicate 5 .done ++ List.replicate 5 .waiting, none, true, .waiting,
        .receiving []⟩ :=
    s5.tail (Step.recvClosed _ 4 rfl (by decide) rfl)
  have s7 : Reach pages0 .eof (init 10)
      ⟨.done false, List.replicate 6 .done ++ List.replicate 4 .waiting, none, true, .waiting,
        .receiving []⟩ :=
    s6.tail (Step.recvClosed _ 5 rfl (by decide) rfl)
  have s8 : Reach pages0 .eof (init 10)
      ⟨.done false, List.replicate 7 .done ++ List.replicate 3 .waiting, none, true, .waiting,
        .receiving []⟩ :=
    s7.tail (Step.recvClosed _ 6 rfl (by decide) rfl)
  have s9 : Reach pages0 .eof (init 10)
      ⟨.done false, List.replicate 8 .done ++ List.replicate 2 .waiting, none, true, .waiting,
        .receiving []⟩ :=
    s8.tail (Step.recvClosed _ 7 rfl (by decide) rfl)
  have s10 : Reach pages0 .eof (init 10)
      ⟨.done false, List.replicate 9 .done ++ List.replicate 1 .waiting, none, true, .waiting,
        .receiving []⟩ :=
    s9.tail (Step.recvClosed _ 8 rfl (by decide) rfl)
  have s11 : Reach pages0 .eof (init 10)
      ⟨.done false, List.replicate 10 .done, none, true, .waiting, .receiving []⟩ :=
    s10.tail (Step.recvClosed _ 9 rfl (by decide) rfl)
  have s12 : Reach pages0 .eof (init 10)
      ⟨.done false, List.replicate 10 .done, none, true, .closed, .receiving []⟩ :=
    s11.tail (Step.closeOk _ rfl (fun w hw => List.eq_of_mem_replicate hw) rfl rfl)
  exact s12.tail (Step.aggFinish _ [] rfl rfl)

/-- Terminal configuration of a complete successful run over `pages1` with a
single worker. -/
def cfgT2 : Cfg :=
  { prod := .done false
    workers := List.replicate 1 .done
    firstErr := none
    hitsClosed := true
    closer := .closed
    agg := .finished [hitAOut] }

/-- Execution witness: the same scroll contents as `reach_cfgT1` but with a
single-worker pool. -/
theorem reach_cfgT2 : Reach pages1 .eof (init 1) cfgT2 := by
  have s0 : Reach pages1 .eof (init 1) (init 1) := Relation.ReflTransGen.refl
  have s1 : Reach pages1 .eof (init 1)
      ⟨.sending 0 [hitA], List.replicate 1 .waiting, none, false, .waiting, .receiving []⟩ :=
    s0.tail (Step.fetchPage _ 0 [hitA] rfl rfl rfl)
  have s2 : Reach pages1 .eof (init 1)
      ⟨.sending 0 [], [.got hitA], none, false, .waiting, .receiving []⟩ :=
    s1.tail (Step.sendHit _ 0 hitA [] 0 rfl (by decide) rfl)
  have s3 : Reach pages1 .eof (init 1)
      ⟨.sending 0 [], [.sendingRes hitAOut], none, false, .waiting, .receiving []⟩ :=
    s2.tail (Step.decodeOk _ 0 hitA hitAOut (by decide) rfl decode_hitA)
  have s4 : Reach pages1 .eof (init 1)
      ⟨.sending 0 [], [.polling], none, false, .waiting, .receiving [hitAOut]⟩ :=
    s3.tail (Step.sendRes _ 0 hitAOut [] (by decide) rfl rfl)
  have s5 : Reach pages1 .eof (init 1)
      ⟨.sending 0 [], [.waiting], none, false, .waiting, .receiving [hitAOut]⟩ :=
    s4.tail (Step.pollOk _ 0 (by decide) rfl rfl)
  have s6 : Reach pages1 .eof (init 1)
      ⟨.fetching 1, [.waiting], none, false, .waiting, .receiving [hitAOut]⟩ :=
    s5.tail (Step.pageNext _ 0 rfl rfl)
  have s7 : Reach pages1 .eof (init 1)
      ⟨.done false, [.waiting], none, true, .waiting, .receiving [hitAOut]⟩ :=
    s6.tail (Step.fetchEof _ 1 rfl rfl (by decide) rfl)
  have s8 : Reach pages1 .eof (init 1)
      ⟨.done false, [.done], none, true, .waiting, .receiving [hitAOut]⟩ :=
    s7.tail (Step.recvClosed _ 0 rfl (by decide) rfl)
  have s9 : Reach pages1 .eof (init 1)
      ⟨.done false, [.done], none, true, .closed, .receiving [hitAOut]⟩ :=
    s8.tail (Step.closeOk _ rfl (fun w hw => List.eq_of_mem_replicate
      (show w ∈ List.replicate 1 WState.done from hw)) rfl rfl)
  exact s9.tail (Step.aggFinish _ [hitAOut] rfl rfl)

/-- Scroll contents triggering the producer deadlock: one page holding one
record with an undecodable payload followed by ten decodable records. -/
def pagesD : List (List SearchHit) := [badHit :: List.replicate 10 goodHit]

/-- Configuration in which the run is wedged: an error is recorded, every
worker has returned, the main goroutine still blocks receiving on `ch`, the
closer still blocks in `g.Wait()`, and the producer still blocks inside the
unconditional `hits <- *hit` send with one record pending and nobody left to
receive it. -/
def cfgStuck : Cfg :=
  { prod := .sending 0 (List.replicate 1 goodHit)
    workers := List.replicate 10 .done
    firstErr := some (.decode badHit)
    hitsClosed := false
    closer := .waiting
    agg := .receiving (List.replicate 9 goodOut) }

/-- Execution witness: after the first record fails to decode and cancels
the run, each remaining worker processes exactly one more record and exits
at its post-send context poll, leaving the producer blocked forever on its
unconditional channel send. -/
theorem reach_cfgStuck : Reach pagesD .eof (init 10) cfgStuck := by
  have s0 : Reach pagesD .eof (init 10) (init 10) := Relation.ReflTransGen.refl
  have s1 : Reach pagesD .eof (init 10)
      ⟨.sending 0 (badHit :: List.replicate 10 goodHit), List.replicate 10 .waiting, none,
        false, .waiting, .receiving []⟩ :=
    s0.tail (Step.fetchPage _ 0 (badHit :: List.replicate 10 goodHit) rfl rfl rfl)
  have s2 : Reach pagesD .eof (init 10)
      ⟨.sending 0 (List.replicate 10 goodHit), .got badHit :: List.replicate 9 .waiting, none,
        false, .waiting, .receiving []⟩ :=
    s1.tail (Step.sendHit _ 0 badHit (List.replicate 10 goodHit) 0 rfl (by decide) rfl)
  have s3 : Reach pagesD .eof (init 10)
      ⟨.sending 0 (List.replicate 10 goodHit), .done :: List.replicate 9 .waiting,
        some (.decode badHit), false, .waiting, .receiving []⟩ :=
    s2.tail (Step.decodeFail _ 0 badHit () (by decide) rfl decode_badHit)
  have s4 : Reach pagesD .eof (init 10)
      ⟨.sending 0 (List.replicate 9 goodHit), List.replicate 1 .done ++ (WState.got goodHit :: List.replicate 8 .waiting),
        some (.decode badHit), false, .waiting, .receiving (List.replicate 0 goodOut)⟩ :=
    s3.tail (Step.sendHit _ 0 goodHit (List.replicate 9 goodHit) 1 rfl (by decide) rfl)
  have s5 : Reach pagesD .eof (init 10)
      ⟨.sending 0 (List.replicate 9 goodHit), List.replicate 1 .done ++ (WState.sendingRes goodOut :: List.replicate 8 .waiting),
        some (.decode badHit), false, .waiting, .receiving (List.replicate 0 goodOut)⟩ :=
    s4.tail (Step.decodeOk _ 1 goodHit goodOut (by decide) rfl decode_goodHit)
  have s6 : Reach pagesD .eof (init 10)
      ⟨.sending 0 (List.replicate 9 goodHit), List.replicate 1 .done ++ (WState.polling :: List.replicate 8 .waiting),
        some (.decode badHit), false, .waiting, .receiving (List.replicate 1 goodOut)⟩ :=
    s5.tail (Step.sendRes _ 1 goodOut (List.replicate 0 goodOut) (by decide) rfl rfl)
  have s7 : Reach pagesD .eof (init 10)
      ⟨.sending 0 (List.replicate 9 goodHit), List.replicate 2 .done ++ List.replicate 8 .waiting,
        some (.decode badHit), false, .waiting, .receiving (List.replicate 1 goodOut)⟩ :=
    s6.tail (Step.pollCancelled _ 1 (.decode badHit) (by decide) rfl rfl)
  have s8 : Reach pagesD .eof (init 10)
      ⟨.sending 0 (List.replicate 8 goodHit), List.replicate 2 .done ++ (WState.got goodHit :: List.replicate 7 .waiting),
        some (.decode badHit), false, .waiting, .receiving (List.replicate 1 goodOut)⟩ :=
    s7.tail (Step.sendHit _ 0 goodHit (List.replicate 8 goodHit) 2 rfl (by decide) rfl)
  have s9 : Reach pagesD .eof (init 10)
      ⟨.sending 0 (List.replicate 8 goodHit), List.replicate 2 .done ++ (WState.sendingRes goodOut :: List.replicate 7 .waiting),
        some (.decode badHit), false, .waiting, .receiving (List.replicate 1 goodOut)⟩ :=
    s8.tail (Step.decodeOk _ 2 goodHit goodOut (by decide) rfl decode_goodHit)
  have s10 : Reach pagesD .eof (init 10)
      ⟨.sending 0 (List.replicate 8 goodHit), List.replicate 2 .done ++ (WState.polling :: List.replicate 7 .waiting),
        some (.decode badHit), false, .waiting, .receiving (List.replicate 2 goodOut)⟩ :=
    s9.tail (Step.sendRes _ 2 goodOut (List.replicate 1 goodOut) (by decide) rfl rfl)
  have s11 : Reach pagesD .eof (init 10)
      ⟨.sending 0 (List.replicate 8 goodHit), List.replicate 3 .done ++ List.replicate 7 .waiting,
        some (.decode badHit), false, .waiting, .receiving (List.replicate 2 goodOut)⟩ :=
    s10.tail (Step.pollCancelled _ 2 (.decode badHit) (by decide) rfl rfl)
  have s12 : Reach pagesD .eof (init 10)
      ⟨.sending 0 (List.replicate 7 goodHit), List.replicate 3 .done ++ (WState.got goodHit :: List.replicate 6 .waiting),
        some (.decode badHit), false, .waiting, .receiving (List.replicate 2 goodOut)⟩ :=
    s11.tail (Step.sendHit _ 0 goodHit (List.replicate 7 goodHit) 3 rfl (by decide) rfl)
  have s13 : Reach pagesD .eof (init 10)
      ⟨.sending 0 (List.replicate 7 goodHit), List.replicate 3 .done ++ (WState.sendingRes goodOut :: List.replicate 6 .waiting),
        some (.decode badHit), false, .waiting, .receiving (List.replicate 2 goodOut)⟩ :=
    s12.tail (Step.decodeOk _ 3 goodHit goodOut (by decide) rfl decode_goodHit)
  have s14 : Reach pagesD .eof (init 10)
      ⟨.sending 0 (List.replicate 7 goodHit), List.replicate 3 .done ++ (WState.polling :: List.replicate 6 .waiting),
        some (.decode badHit), false, .waiting, .receiving (List.replicate 3 goodOut)⟩ :=
    s13.tail (Step.sendRes _ 3 goodOut (List.replicate 2 goodOut) (by decide) rfl rfl)
  have s15 : Reach pagesD .eof (init 10)
      ⟨.sending 0 (List.replicate 7 goodHit), List.replicate 4 .done ++ List.replicate 6 .waiting,
        some (.decode badHit), false, .waiting, .receiving (List.replicate 3 goodOut)⟩ :=
    s14.tail (Step.pollCancelled _ 3 (.decode badHit) (by decide) rfl rfl)
  have s16 : Reach pagesD .eof (init 10)
      ⟨.sending 0 (List.replicate 6 goodHit), List.replicate 4 .done ++ (WState.got goodHit :: List.replicate 5 .waiting),
        some (.decode badHit), false, .waiting, .receiving (List.replicate 3 goodOut)⟩ :=
    s15.tail (Step.sendHit _ 0 goodHit (List.replicate 6 goodHit) 4 rfl (by decide) rfl)
  have s17 : Reach pagesD .eof (init 10)
      ⟨.sending 0 (List.replicate 6 goodHit), List.replicate 4 .done ++ (WState.sendingRes goodOut :: List.replicate 5 .waiting),
        some (.decode badHit), false, .waiting, .receiving (List.replicate 3 goodOut)⟩ :=
    s16.tail (Step.decodeOk _ 4 goodHit goodOut (by decide) rfl decode_goodHit)
  have s18 : Reach pagesD .eof (init 10)
      ⟨.sending 0 (List.replicate 6 goodHit), List.replicate 4 .done ++ (WState.polling :: List.replicate 5 .waiting),
        some (.decode badHit), false, .waiting, .receiving (List.replicate 4 goodOut)⟩ :=
    s17.tail (Step.sendRes _ 4 goodOut (List.replicate 3 goodOut) (by decide) rfl rfl)
  have s19 : Reach pagesD .eof (init 10)
      ⟨.sending 0 (List.replicate 6 goodHit), List.replicate 5 .done ++ List.replicate 5 .waiting,
        some (.decode badHit), false, .waiting, .receiving (List.replicate 4 goodOut)⟩ :=
    s18.tail (Step.pollCancelled _ 4 (.decode badHit) (by decide) rfl rfl)
  have s20 : Reach pagesD .eof (init 10)
      ⟨.sending 0 (List.replicate 5 goodHit), List.replicate 5 .done ++ (WState.got goodHit :: List.replicate 4 .waiting),
        some (.decode badHit), false, .waiting, .receiving (List.replicate 4 goodOut)⟩ :=
    s19.tail (Step.sendHit _ 0 goodHit (List.replicate 5 goodHit) 5 rfl (by decide) rfl)
  have s21 : Reach pagesD .eof (init 10)
      ⟨.sending 0 (List.replicate 5 goodHit), List.replicate 5 .done ++ (WState.sendingRes goodOut :: List.replicate 4 .waiting),
        some (.decode badHit), false, .waiting, .receiving (List.replicate 4 goodOut)⟩ :=
    s20.tail (Step.decodeOk _ 5 goodHit goodOut (by decide) rfl decode_goodHit)
  have s22 : Reach pagesD .eof (init 10)
      ⟨.sending 0 (List.replicate 5 goodHit), List.replicate 5 .done ++ (WState.polling :: List.replicate 4 .waiting),
        some (.decode badHit), false, .waiting, .receiving (List.replicate 5 goodOut)⟩ :=
    s21.tail (Step.sendRes _ 5 goodOut (List.replicate 4 goodOut) (by decide) rfl rfl)
  have s23 : Reach pagesD .eof (init 10)
      ⟨.sending 0 (List.replicate 5 goodHit), List.replicate 6 .done ++ List.replicate 4 .waiting,
        some (.decode badHit), false, .waiting, .receiving (List.replicate 5 goodOut)⟩ :=
    s22.tail (Step.pollCancelled _ 5 (.decode badHit) (by decide) rfl rfl)
  have s24 : Reach pagesD .eof (init 10)
      ⟨.sending 0 (List.replicate 4 goodHit), List.replicate 6 .done ++ (WState.got goodHit :: List.replicate 3 .waiting),
        some (.decode badHit), false, .waiting, .receiving (List.replicate 5 goodOut)⟩ :=
    s23.tail (Step.sendHit _ 0 goodHit (List.replicate 4 goodHit) 6 rfl (by decide) rfl)
  have s25 : Reach pagesD .eof (init 10)
      ⟨.sending 0 (List.replicate 4 goodHit), List.replicate 6 .done ++ (WState.sendingRes goodOut :: List.replicate 3 .waiting),
        some (.decode badHit), false, .waiting, .receiving (List.replicate 5 goodOut)⟩ :=
    s24.tail (Step.decodeOk _ 6 goodHit goodOut (by decide) rfl decode_goodHit)
  have s26 : Reach pagesD .eof (init 10)
      ⟨.sending 0 (List.replicate 4 goodHit), List.replicate 6 .done ++ (WState.polling :: List.replicate 3 .waiting),
        some (.decode badHit), false, .waiting, .receiving (List.replicate 6 goodOut)⟩ :=
    s25.tail (Step.sendRes _ 6 goodOut (List.replicate 5 goodOut) (by decide) rfl rfl)
  have s27 : Reach pagesD .eof (init 10)
      ⟨.sending 0 (List.replicate 4 goodHit), List.replicate 7 .done ++ List.replicate 3 .waiting,
        some (.decode badHit), false, .waiting, .receiving (List.replicate 6 goodOut)⟩ :=
    s26.tail (Step.pollCancelled _ 6 (.decode badHit) (by decide) rfl rfl)
  have s28 : Reach pagesD .eof (init 10)
      ⟨.sending 0 (List.replicate 3 goodHit), List.replicate 7 .done ++ (WState.got goodHit :: List.replicate 2 .waiting),
        some (.decode badHit), false, .waiting, .receiving (List.replicate 6 goodOut)⟩ :=
    s27.tail (Step.sendHit _ 0 goodHit (List.replicate 3 goodHit) 7 rfl (by decide) rfl)
  have s29 : Reach pagesD .eof (init 10)
      ⟨.sending 0 (List.replicate 3 goodHit), List.replicate 7 .done ++ (WState.sendingRes goodOut :: List.replicate 2 .waiting),
        some (.decode badHit), false, .waiting, .receiving (List.replicate 6 goodOut)⟩ :=
    s28.tail (Step.decodeOk _ 7 goodHit goodOut (by decide) rfl decode_goodHit)
  have s30 : Reach pagesD .eof (init 10)
      ⟨.sending 0 (List.replicate 3 goodHit), List.replicate 7 .done ++ (WState.polling :: List.replicate 2 .waiting),
        some (.decode badHit), false, .waiting, .receiving (List.replicate 7 goodOut)⟩ :=
    s29.tail (Step.sendRes _ 7 goodOut (List.replicate 6 goodOut) (by decide) rfl rfl)
  have s31 : Reach pagesD .eof (init 10)
      ⟨.sending 0 (List.replicate 3 goodHit), List.replicate 8 .done ++ List.replicate 2 .waiting,
        some (.decode badHit), false, .waiting, .receiving (List.replicate 7 goodOut)⟩ :=
    s30.tail (Step.pollCancelled _ 7 (.decode badHit) (by decide) rfl rfl)
  have s32 : Reach pagesD .eof (init 10)
      ⟨.sending 0 (List.replicate 2 goodHit), List.replicate 8 .done ++ (WState.got goodHit :: List.replicate 1 .waiting),
        some (.decode badHit), false, .waiting, .receiving (List.replicate 7 goodOut)⟩ :=
    s31.tail (Step.sendHit _ 0 goodHit (List.replicate 2 goodHit) 8 rfl (by decide) rfl)
  have s33 : Reach pagesD .eof (init 10)
      ⟨.sending 0 (List.replicate 2 goodHit), List.replicate 8 .done ++ (WState.sendingRes goodOut :: List.replicate 1 .waiting),
        some (.decode badHit), false, .waiting, .receiving (List.replicate 7 goodOut)⟩ :=
    s32.tail (Step.decodeOk _ 8 goodHit goodOut (by decide) rfl decode_goodHit)
  have s34 : Reach pagesD .eof (init 10)
      ⟨.sending 0 (List.replicate 2 goodHit), List.replicate 8 .done ++ (WState.polling :: List.replicate 1 .waiting),
        some (.decode badHit), false, .waiting, .receiving (List.replicate 8 goodOut)⟩ :=
    s33.tail (Step.sendRes _ 8 goodOut (List.replicate 7 goodOut) (by decide) rfl rfl)
  have s35 : Reach pagesD .eof (init 10)
      ⟨.sending 0 (List.replicate 2 goodHit), List.replicate 9 .done ++ List.replicate 1 .waiting,
        some (.decode badHit), false, .waiting, .receiving (List.replicate 8 goodOut)⟩ :=
    s34.tail (Step.pollCancelled _ 8 (.decode badHit) (by decide) rfl rfl)
  have s36 : Reach pagesD .eof (init 10)
      ⟨.sending 0 (List.replicate 1 goodHit), List.replicate 9 .done ++ (WState.got goodHit :: List.replicate 0 .waiting),
        some (.decode badHit), false, .waiting, .receiving (List.replicate 8 goodOut)⟩ :=
    s35.tail (Step.sendHit _ 0 goodHit (List.replicate 1 goodHit) 9 rfl (by decide) rfl)
  have s37 : Reach pagesD .eof (init 10)
      ⟨.sending 0 (List.replicate 1 goodHit), List.replicate 9 .done ++ (WState.sendingRes goodOut :: List.replicate 0 .waiting),
        some (.decode badHit), false, .waiting, .receiving (List.replicate 8 goodOut)⟩ :=
    s36.tail (Step.decodeOk _ 9 goodHit goodOut (by decide) rfl decode_goodHit)
  have s38 : Reach pagesD .eof (init 10)
      ⟨.sending 0 (List.replicate 1 goodHit), List.replicate 9 .done ++ (WState.polling :: List.replicate 0 .waiting),
        some (.decode badHit), false, .waiting, .receiving (List.replicate 9 goodOut)⟩ :=
    s37.tail (Step.sendRes _ 9 goodOut (List.replicate 8 goodOut) (by decide) rfl rfl)
  have s39 : Reach pagesD .eof (init 10)
      ⟨.sending 0 (List.replicate 1 goodHit), List.replicate 10 .done,
        some (.decode badHit), false, .waiting, .receiving (List.replicate 9 goodOut)⟩ :=
    s38.tail (Step.pollCancelled _ 9 (.decode badHit) (by decide) rfl rfl)
  exact s39

/-- No step at all is enabled in the wedged configuration: every goroutine is
blocked and the pipeline is deadlocked.  In particular the producer, blocked
in its unconditional `hits <- *hit` send, never observes the cancellation. -/
theorem cfgStuck_stuck : ¬∃ c2, Step pagesD .eof cfgStuck c2 := by
  rintro ⟨c2, h⟩
  have hall : ∀ w ∈ cfgStuck.workers, w = WState.done := fun w hw =>
    List.eq_of_mem_replicate (show w ∈ List.replicate 10 WState.done from hw)
  cases h with
  | fetchPage k pg hp he hk => simp [cfgStuck] at hp
  | fetchCancelled k e hp he => simp [cfgStuck] at hp
  | fetchEof k hp he hk ht => simp [cfgStuck] at hp
  | fetchSrcErr k hp he hk ht => simp [cfgStuck] at hp
  | sendHit k h rest i hp hi hw =>
      have hdone := all_done_get hall i hi
      rw [hw] at hdone
      simp at hdone
  | pageNext k hp he => simp [cfgStuck] at hp
  | pageCancelled k e hp he => simp [cfgStuck] at hp
  | recvClosed i hcl hi hw => simp [cfgStuck] at hcl
  | decodeOk i h hit hi hw hd =>
      have hdone := all_done_get hall i hi
      rw [hw] at hdone
      simp at hdone
  | decodeFail i h e hi hw hd =>
      have hdone := all_done_get hall i hi
      rw [hw] at hdone
      simp at hdone
  | sendRes i hit acc hi hw ha =>
      have hdone := all_done_get hall i hi
      rw [hw] at hdone
      simp at hdone
  | pollOk i hi hw he => simp [cfgStuck] at he
  | pollCancelled i e hi hw he =>
      have hdone := all_done_get hall i hi
      rw [hw] at hdone
      simp at hdone
  | closeOk hP hW hcl he => simp [cfgStuck] at he
  | closePanic e hP hW hcl he => simp [cfgStuck, PState.isDone] at hP
  | aggFinish acc ha hcl => simp [cfgStuck] at hcl

/-- Objects with no key matching the `code` field decode to whatever value
the field already holds (the zero value at the top-level call). -/
theorem unmarshalFields_no_match (fs : List (String × Json)) (acc : String)
    (hnm : ∀ kv ∈ fs, keyMatches kv.1 = false) :
    unmarshalFields fs acc = .ok acc := by
  induction fs generalizing acc with
  | nil => rfl
  | cons kv rest ih =>
      obtain ⟨k, v⟩ := kv
      have hk := hnm (k, v) (by simp)
      simp only [unmarshalFields, hk, Bool.false_eq_true, if_false]
      exact ih acc (fun kv2 h2 => hnm kv2 (by simp [h2]))

/-- Field-level success characterization: decoding the fields of an object
succeeds exactly when every key matching the `code` field holds a string or
JSON null. -/
theorem unmarshalFields_ok_iff (fs : List (String × Json)) (acc : String) :
    (∃ s, unmarshalFields fs acc = .ok s) ↔
      ∀ kv ∈ fs, keyMatches kv.1 = true → (∃ s2, kv.2 = .str s2) ∨ kv.2 = .null := by
  induction fs generalizing acc with
  | nil => simp [unmarshalFields]
  | cons kv rest ih =>
      obtain ⟨k, v⟩ := kv
      by_cases hk : keyMatches k = true
      · cases v <;> simp [unmarshalFields, hk, ih]
      · simp only [Bool.not_eq_true] at hk
        simp [unmarshalFields, hk, ih]

/-- Top-level success characterization of `json.Unmarshal` into `Source`:
decoding succeeds exactly when the payload is well-formed JSON whose
top-level value is null, or an object in which every key matching the `code`
field holds a string or JSON null. -/
theorem unmarshal_ok_iff (p : Option Json) :
    (∃ s, unmarshal p = .ok s) ↔
      (p = some .null ∨ ∃ fs, p = some (.obj fs) ∧
        ∀ kv ∈ fs, keyMatches kv.1 = true → (∃ s2, kv.2 = .str s2) ∨ kv.2 = .null) := by
  cases p with
  | none => simp [unmarshal]
  | some j =>
      cases j with
      | null => simp [unmarshal, unmarshalSource]
      | bool b => simp [unmarshal, unmarshalSource]
      | num n => simp [unmarshal, unmarshalSource]
      | str s => simp [unmarshal, unmarshalSource]
      | arr elems => simp [unmarshal, unmarshalSource]
      | obj fs =>
          have hmap : (∃ s, unmarshal (some (.obj fs)) = .ok s) ↔
              ∃ t, unmarshalFields fs "" = .ok t := by
            cases hu : unmarshalFields fs "" <;>
              simp [unmarshal, unmarshalSource, hu, Except.map]
          rw [hmap, unmarshalFields_ok_iff]
          simp

/-- Error-setting steps are exactly a stage returning its own failure: the
producer returning the scroll error, or a worker returning a decode error. -/
theorem step_sets_err {pages : List (List SearchHit)} {term : Term} {c c2 : Cfg}
    (hs : Step pages term c c2) (e : Err)
    (h0 : c.firstErr = none) (h1 : c2.firstErr = some e) :
    (e = .source ∧ term = .srcErr ∧ c2.prod = .done true) ∨
      (∃ h, e = Err.decode h ∧ decodeHit h = .error ()) := by
  cases hs <;> simp_all [setErr]
  next i h eu hi hw hd =>
    exact Or.inr ⟨h, h1.symm, hd⟩

/-- C1: for every successful run of the ten-worker pipeline, assuming the
scroll service is consistent (count() equals the number of records across
all pages, and identifiers are unique within the run as the source
guarantees), the persisted slice has exactly `total` records and its
identifier set equals the identifier set of all records of all pages, with
no duplicates and no omissions. -/
theorem c1_resultset_complete (pages : List (List SearchHit)) (term : Term)
    (c : Cfg) (data : List Hit) (total : Nat)
    (hrun : Reach pages term (init 10) c) (hfin : c.agg = .finished data)
    (htotal : total = pages.flatten.length)
    (hnodup : (pages.flatten.map SearchHit.Id).Nodup) :
    data.length = total ∧ (data.map Hit.ID).Nodup ∧
      (data.map Hit.ID).toFinset = (pages.flatten.map SearchHit.Id).toFinset := by
  have hids := finished_ids hrun hfin
  have hlen := finished_len hrun hfin
  refine ⟨by rw [hlen, htotal], ?_, ?_⟩
  · have hnd : (↑(data.map Hit.ID) : Multiset String).Nodup := by
      rw [hids]
      exact Multiset.coe_nodup.mpr hnodup
    exact Multiset.coe_nodup.mp hnd
  · have := congrArg Multiset.toFinset hids
    simpa using this

/-- Witness for C1 at the concrete one-record run. -/
theorem c1_witness :
    [hitAOut].length = 1 ∧ ([hitAOut].map Hit.ID).Nodup ∧
      ([hitAOut].map Hit.ID).toFinset = (pages1.flatten.map SearchHit.Id).toFinset :=
  c1_resultset_complete pages1 .eof cfgT1 [hitAOut] 1 reach_cfgT1 rfl (by decide) (by decide)

/-- C2: whenever the scroll reports a source error after its pages, or any
single record of any page fails to decode, no run with any worker-pool size
ever reaches a configuration in which the main goroutine has marshalled and
written a slice: the persistence step is never invoked and no partial result
is written. -/
theorem c2_no_partial_persistence (pages : List (List SearchHit)) (term : Term)
    (n : Nat) (c : Cfg) (data : List Hit)
    (hrun : Reach pages term (init n) c)
    (hfail : term = .srcErr ∨ ∃ r ∈ pages.flatten, decodeHit r = .error ()) :
    c.agg ≠ .finished data := by
  intro hfin
  rcases hfail with ht | ⟨r, hr, hd⟩
  · have heof := (finished_eof hrun hfin).2
    rw [ht] at heof
    exact Term.noConfusion heof
  · obtain ⟨hit, hok⟩ := finished_decode_ok hrun hfin r hr
    rw [hd] at hok
    exact Except.noConfusion hok

/-- Witness for C2 at a concrete run whose only record cannot decode. -/
theorem c2_witness : (init 10).agg ≠ .finished [] :=
  c2_no_partial_persistence [[badHit]] .eof 10 (init 10) []
    Relation.ReflTransGen.refl (Or.inr ⟨badHit, by simp, decode_badHit⟩)

/-- C3 as stated is false: a run over zero matching records finishes with an
empty slice, but `json.Marshal` of the nil slice writes JSON `null`, not an
array with zero elements. -/
theorem c3_counterexample :
    Reach pages0 .eof (init 10) cfgT0 ∧ cfgT0.agg = .finished [] ∧
      marshalData [] = Json.null ∧ Json.null ≠ Json.arr [] :=
  ⟨reach_cfgT0, rfl, rfl, fun h => Json.noConfusion h⟩

/-- C3 amended: for every run over zero matching records that completes, the
slice is empty and the persistence step receives the serialization of the
empty (nil) slice, which is JSON `null` rather than a zero-element array. -/
theorem c3_empty_run_persists_null (pages : List (List SearchHit)) (term : Term)
    (c : Cfg) (data : List Hit)
    (hrun : Reach pages term (init 10) c) (hempty : pages.flatten = [])
    (hfin : c.agg = .finished data) :
    data = [] ∧ marshalData data = Json.null := by
  have hlen := finished_len hrun hfin
  rw [hempty] at hlen
  have hdata : data = [] := List.length_eq_zero.mp hlen
  exact ⟨hdata, by rw [hdata]; rfl⟩

/-- Witness for the amended C3 at the concrete zero-record run. -/
theorem c3_witness : ([] : List Hit) = [] ∧ marshalData [] = Json.null :=
  c3_empty_run_persists_null pages0 .eof cfgT0 [] reach_cfgT0 rfl rfl

/-- C4 as stated is false: the persisted artifact does carry the decoded
`code` field, but the identifier is serialized under the untagged Go field
name `ID`, not `id`. -/
theorem c4_counterexample :
    Reach pages1 .eof (init 10) cfgT1 ∧ cfgT1.agg = .finished [hitAOut] ∧
      marshalData [hitAOut] = .arr [.obj [("code", .str "A"), ("ID", .str "id1")]] ∧
      [("code", Json.str "A"), ("ID", Json.str "id1")].map Prod.fst = ["code", "ID"] ∧
      "id" ∉ (["code", "ID"] : List String) :=
  ⟨reach_cfgT1, rfl, rfl, rfl, by decide⟩

/-- C4 amended: whenever a run finishes, the marshalled artifact is written
once and never modified by any further step; a non-empty slice serializes as
an array of objects each carrying exactly the fields `code` (the decoded
string) and `ID` (the record identifier), while the empty slice serializes
as JSON `null`; and the slice contents correspond one to one to the
successful decode outcomes of the scroll records. -/
theorem c4_persisted_artifact (pages : List (List SearchHit)) (term : Term)
    (c : Cfg) (data : List Hit)
    (hrun : Reach pages term (init 10) c) (hfin : c.agg = .finished data) :
    (∀ c2, Step pages term c c2 → c2.agg = .finished data) ∧
      (data = [] ∧ marshalData data = Json.null ∨
        marshalData data
          = .arr (data.map fun h => .obj [("code", .str h.Source.Code), ("ID", .str h.ID)])) ∧
      (↑(data.map (Except.ok : Hit → Except Unit Hit)) : Multiset (Except Unit Hit))
        = ↑(pages.flatten.map decodeHit) := by
  refine ⟨fun c2 hs => step_finished_stable hs data hfin, ?_, finished_ok hrun hfin⟩
  cases data with
  | nil => exact Or.inl ⟨rfl, rfl⟩
  | cons a l => exact Or.inr rfl

/-- Witness for the amended C4 at the concrete one-record run. -/
theorem c4_witness :
    (∀ c2, Step pages1 .eof cfgT1 c2 → c2.agg = .finished [hitAOut]) ∧
      ([hitAOut] = [] ∧ marshalData [hitAOut] = Json.null ∨
        marshalData [hitAOut]
          = .arr ([hitAOut].map fun h => .obj [("code", .str h.Source.Code), ("ID", .str h.ID)])) ∧
      (↑([hitAOut].map (Except.ok : Hit → Except Unit Hit)) : Multiset (Except Unit Hit))
        = ↑(pages1.flatten.map decodeHit) :=
  c4_persisted_artifact pages1 .eof cfgT1 [hitAOut] reach_cfgT1 rfl

/-- C5: in every reachable configuration the producer has returned nil only
if the scroll reported io.EOF; it has returned an error only with a recorded
failure (a scroll error or a cancellation following one); and the hits
channel is closed exactly when the producer has returned, whatever the exit
path — the liveness half (the producer does terminate on a source error) is
rendered by its safety content: under a non-EOF terminal the producer can
never be in the normal-return state. -/
theorem c5_producer_termination (pages : List (List SearchHit)) (term : Term)
    (n : Nat) (c : Cfg) (hrun : Reach pages term (init n) c) :
    (c.prod = .done false → term = .eof) ∧
      (c.prod = .done true → c.firstErr ≠ none) ∧
      c.hitsClosed = c.prod.isDone := by
  have inv := reach_inv hrun
  exact ⟨inv.doneEof, inv.doneErr, inv.hcProd⟩

/-- Witness for C5 at the final configuration of the one-record run. -/
theorem c5_witness :
    (cfgT1.prod = .done false → Term.eof = Term.eof) ∧
      (cfgT1.prod = .done true → cfgT1.firstErr ≠ none) ∧
      cfgT1.hitsClosed = cfgT1.prod.isDone :=
  c5_producer_termination pages1 .eof 10 cfgT1 reach_cfgT1

/-- C6: the errgroup register starts unset; once set it keeps the same value
through any further steps (the transition is irreversible and at most one
cause is ever retained); and any step that sets it from unset to set is a
stage returning its own first failure — the producer returning the scroll
error or a worker returning a decode error. -/
theorem c6_cancellation_flag :
    (∀ n, (init n).firstErr = none) ∧
      (∀ pages term c c2 e, Reach pages term c c2 →
        c.firstErr = some e → c2.firstErr = some e) ∧
      (∀ pages term c c2 e, Step pages term c c2 →
        c.firstErr = none → c2.firstErr = some e →
          (e = .source ∧ term = .srcErr ∧ c2.prod = .done true) ∨
            (∃ h, e = Err.decode h ∧ decodeHit h = .error ())) := by
  refine ⟨fun n => rfl, fun pages term c c2 e hr => ?_,
    fun pages term c c2 e hs h0 h1 => step_sets_err hs e h0 h1⟩
  induction hr with
  | refl => exact fun he => he
  | tail hr2 hs ih => exact fun he => step_firstErr_mono hs e (ih he)

/-- Witness for C6: retention applied along an empty step sequence, and the
setting characterization applied to the concrete decode-failure step. -/
theorem c6_witness :
    cfgStuck.firstErr = some (Err.decode badHit) ∧
      ((Err.decode badHit = .source ∧ Term.eof = Term.srcErr ∧
          cfgStuck.prod = .done true) ∨
        (∃ h, Err.decode badHit = Err.decode h ∧ decodeHit h = .error ())) :=
  ⟨c6_cancellation_flag.2.1 pagesD .eof cfgStuck cfgStuck (.decode badHit)
      Relation.ReflTransGen.refl rfl,
    Or.inr ⟨badHit, rfl, decode_badHit⟩⟩

/-- C7: in every reachable configuration of any run, the results channel is
closed only after the producer has returned and every decode worker has
returned — the closure happens strictly after the join barrier `g.Wait()`
has seen all producer and worker completions. -/
theorem c7_close_after_join (pages : List (List SearchHit)) (term : Term)
    (n : Nat) (c : Cfg) (hrun : Reach pages term (init n) c)
    (hcl : c.closer = .closed) :
    c.prod.isDone = true ∧ ∀ w ∈ c.workers, w = WState.done := by
  have inv := reach_inv hrun
  obtain ⟨-, h1, h2⟩ := inv.closedInv hcl
  exact ⟨h1, h2⟩

/-- Witness for C7 at the final configuration of the one-record run, whose
results channel is closed. -/
theorem c7_witness :
    cfgT1.prod.isDone = true ∧ ∀ w ∈ cfgT1.workers, w = WState.done :=
  c7_close_after_join pages1 .eof 10 cfgT1 reach_cfgT1 rfl

/-- C8: for one fixed scroll input, any completed run with one worker and
any completed run with ten workers produce slices with the same multiset of
identifiers (hence the same identifier set; only the order may differ). -/
theorem c8_worker_count_equivalence (pages : List (List SearchHit)) (term : Term)
    (cOne cTen : Cfg) (dOne dTen : List Hit)
    (hrun1 : Reach pages term (init 1) cOne) (hfin1 : cOne.agg = .finished dOne)
    (hrun10 : Reach pages term (init 10) cTen) (hfin10 : cTen.agg = .finished dTen) :
    (↑(dOne.map Hit.ID) : Multiset String) = ↑(dTen.map Hit.ID) ∧
      (dOne.map Hit.ID).toFinset = (dTen.map Hit.ID).toFinset := by
  have e1 := finished_ids hrun1 hfin1
  have e10 := finished_ids hrun10 hfin10
  have hm : (↑(dOne.map Hit.ID) : Multiset String) = ↑(dTen.map Hit.ID) := by
    rw [e1, e10]
  refine ⟨hm, ?_⟩
  have := congrArg Multiset.toFinset hm
  simpa using this

/-- Witness for C8: the concrete one-worker and ten-worker runs over the
same one-record scroll. -/
theorem c8_witness :
    (↑([hitAOut].map Hit.ID) : Multiset String) = ↑([hitAOut].map Hit.ID) ∧
      ([hitAOut].map Hit.ID).toFinset = ([hitAOut].map Hit.ID).toFinset :=
  c8_worker_count_equivalence pages1 .eof cfgT2 cfgT1 [hitAOut] [hitAOut]
    reach_cfgT2 rfl reach_cfgT1 rfl

/-- C9 fails on the code: the run over `pagesD` reaches a configuration in
which the cancellation has been triggered (a decode error is recorded), yet
the producer is still blocked in its unconditional `hits <- *hit` send with
a record pending, every worker has returned, and no step whatsoever is
enabled — the producer never observes the cancellation at its blocking
publish, the join never completes, and the pipeline hangs instead of
aborting.  The source sends without the `select` on `ctx.Done()` that the
upstream example it is derived from uses. -/
theorem c9_producer_misses_cancellation :
    Reach pagesD .eof (init 10) cfgStuck ∧
      cfgStuck.firstErr = some (.decode badHit) ∧
      cfgStuck.prod = .sending 0 [goodHit] ∧
      cfgStuck.prod.isDone = false ∧
      ¬∃ c2, Step pagesD .eof cfgStuck c2 :=
  ⟨reach_cfgStuck, rfl, rfl, rfl, cfgStuck_stuck⟩

/-- C10 as stated is false: a payload that is well-formed JSON but whose
top-level value is an array — so it is neither ill-formed nor an object with
a mistyped `code` field — still fails to decode into the `Source` struct. -/
theorem c10_counterexample :
    unmarshal (some (.arr [])) = .error () ∧
      some (Json.arr []) ≠ (none : Option Json) ∧
      (∀ fs : List (String × Json), Json.arr [] ≠ .obj fs) :=
  ⟨rfl, by simp, fun fs h => Json.noConfusion h⟩

/-- C10 amended: decoding a record payload succeeds exactly when it is
well-formed JSON whose top-level value is null, or an object in which every
key matching the `code` field (case-insensitively, as encoding/json matches
struct fields) holds a string or JSON null; in particular a JSON object that
lacks a `code` field — whatever other fields it carries — decodes
successfully to the empty-string code and is processed as a normal record. -/
theorem c10_decode_characterization :
    (∀ p : Option Json, (∃ s, unmarshal p = .ok s) ↔
        (p = some .null ∨ ∃ fs, p = some (.obj fs) ∧
          ∀ kv ∈ fs, keyMatches kv.1 = true → (∃ s2, kv.2 = .str s2) ∨ kv.2 = .null)) ∧
      (∀ fs : List (String × Json), (∀ kv ∈ fs, keyMatches kv.1 = false) →
        unmarshal (some (.obj fs)) = .ok ⟨""⟩) := by
  refine ⟨unmarshal_ok_iff, fun fs hnm => ?_⟩
  show (unmarshalFields fs "").map Source.mk = .ok ⟨""⟩
  rw [unmarshalFields_no_match fs "" hnm]
  rfl

/-- Witness for the amended C10: an object with only a non-matching field
decodes to the empty-string code. -/
theorem c10_witness :
    unmarshal (some (.obj [("qty", .num 3)])) = .ok ⟨""⟩ :=
  c10_decode_characterization.2 [("qty", .num 3)] (by decide)
